import Mathlib

/-
  Verification of the friend-suggestion engine of the CodeConnect
  application (src/codeconnect/app.py), as a shallow embedding.

  The embedding covers the data the engine reads (users, the `friends`,
  `friend_request` and `dismissed_suggestions` tables), the two mutating
  routes that matter to the claims (`remove_friend_suggestion`, built on
  `User.dismiss_suggestion`), and the ranking route
  `get_friend_suggestions`, which calls `get_tag_vectors`
  (sklearn TfidfVectorizer with default settings) and sklearn
  `cosine_similarity`.

  Machine floats of the source are modelled by real numbers.
-/

namespace CodeConnect

/-- A row of the `user` table.  Only the columns the suggestion engine
reads are modelled.  The `tags` column is a JSON string with default
`"[]"`; every write goes through `json.dumps` of a Python list of
strings, so it is modelled as the parsed list. -/
structure User where
  id : Nat
  name : String
  email : String
  tags : List String
deriving DecidableEq

/-- A row of the `friend_request` table (columns used by the engine). -/
structure FriendRequest where
  sender_id : Nat
  receiver_id : Nat
  status : String
deriving DecidableEq

/-- The database state the suggestion engine touches: the `user` table,
the `friends` association table (rows `(user_id, friend_id)`), the
`friend_request` table, and the `dismissed_suggestions` association
table (rows `(user_id, suggested_user_id)`). -/
structure Store where
  users : List User
  friends : List (Nat × Nat)
  requests : List FriendRequest
  dismissed : List (Nat × Nat)
deriving DecidableEq

/-- `User.is_friend`: `self.friends.filter(friends.c.friend_id == user.id).count() > 0`,
i.e. a `(self.id, user.id)` row exists in the `friends` table. -/
def is_friend (s : Store) (self other : User) : Bool :=
  s.friends.contains (self.id, other.id)

/-- `User.has_dismissed_suggestion`: a `(self.id, user.id)` row exists in
the `dismissed_suggestions` table. -/
def has_dismissed_suggestion (s : Store) (self other : User) : Bool :=
  s.dismissed.contains (self.id, other.id)

/-- `FriendRequest.query.filter_by(sender_id=a, receiver_id=b, status='pending').first()`
is truthy: some request row matches sender, receiver and pending status. -/
def pendingRequestFrom (s : Store) (senderId receiverId : Nat) : Bool :=
  s.requests.any (fun r =>
    r.sender_id == senderId && r.receiver_id == receiverId && r.status == "pending")

/-- `User.dismiss_suggestion`: append a `(self.id, user.id)` row to
`dismissed_suggestions` unless it is already present. -/
def dismiss_suggestion (s : Store) (self other : User) : Store :=
  if has_dismissed_suggestion s self other then s
  else { s with dismissed := s.dismissed ++ [(self.id, other.id)] }

/-- `User.query.get(user_id)`: primary-key lookup in the `user` table. -/
def findUser (s : Store) (uid : Nat) : Option User :=
  s.users.find? (fun u => u.id == uid)

/-- Outcome of the `/remove_friend_suggestion/<user_id>` route (the
authentication failures, which are out of the engine's scope, are not
modelled): success carries the updated store, `notFound` is the
404 "User not found" response. -/
inductive DismissResponse where
  | success (s : Store)
  | notFound
deriving DecidableEq

/-- The `/remove_friend_suggestion/<user_id>` route body: look up the
target by id; 404 when absent, otherwise record the dismissal and
answer `{"success": True}`. -/
def remove_friend_suggestion (s : Store) (current_user : User) (userId : Nat) : DismissResponse :=
  match findUser s userId with
  | none => .notFound
  | some u => .success (dismiss_suggestion s current_user u)

/- ----------------------------------------------------------------
   Vectorization: `get_tag_vectors` joins each user's tags with spaces
   and feeds the strings to sklearn's TfidfVectorizer with default
   settings: lowercasing, token pattern `\w\w+` (maximal runs of word
   characters, runs of length 1 dropped), raw term counts, smooth idf
   `log((1+n)/(1+df)) + 1`, and l2 row normalization.  `fit_transform`
   raises ValueError when the resulting vocabulary is empty.
   ---------------------------------------------------------------- -/

/-- A word character of the default token pattern `\w` (ASCII part,
which suffices for the inputs considered here). -/
def isWordChar (c : Char) : Bool := c.isAlphanum || c == '_'

/-- Split a character stream into maximal runs of word characters; the
second argument accumulates the current run in reverse. -/
def wordRuns : List Char → List Char → List (List Char)
  | [], acc => if acc.isEmpty then [] else [acc.reverse]
  | c :: cs, acc =>
    if isWordChar c then wordRuns cs (c :: acc)
    else if acc.isEmpty then wordRuns cs []
    else acc.reverse :: wordRuns cs []

/-- The default TfidfVectorizer analyzer: lowercase the document, then
take the maximal word-character runs of length at least 2. -/
def tokenize (doc : String) : List String :=
  ((wordRuns (doc.toList.map Char.toLower) []).filter (fun t => 2 ≤ t.length)).map
    (fun t => String.mk t)

/-- The document `get_tag_vectors` builds for a user:
`' '.join(json.loads(user.tags))`. -/
def userDoc (u : User) : String := String.intercalate " " u.tags

/-- The token stream the vectorizer extracts from a user's document. -/
def userTokens (u : User) : List String := tokenize (userDoc u)

/-- The fitted vocabulary: every token occurring in some document of the
pool.  (sklearn additionally sorts the feature names; the order of the
vocabulary does not affect any quantity computed from it.) -/
def vocabulary (docs : List (List String)) : List String := docs.flatten.dedup

/-- Document frequency: how many documents of the pool contain the term. -/
def docCount (docs : List (List String)) (t : String) : Nat :=
  (docs.filter (fun d => d.contains t)).length

/-- Smooth inverse document frequency of TfidfVectorizer:
`ln((1 + n) / (1 + df)) + 1`. -/
noncomputable def idf (docs : List (List String)) (t : String) : ℝ :=
  Real.log ((1 + (docs.length : ℝ)) / (1 + (docCount docs t : ℝ))) + 1

/-- Unnormalized tf-idf weight of a term in a document: raw count times
idf. -/
noncomputable def tfidfWeight (docs : List (List String)) (d : List String) (t : String) : ℝ :=
  ((d.count t : ℕ) : ℝ) * idf docs t

/-- Dot product of two documents' tf-idf vectors over the fitted
vocabulary. -/
noncomputable def dotProduct (docs : List (List String)) (d1 d2 : List String) : ℝ :=
  ((vocabulary docs).map (fun t => tfidfWeight docs d1 t * tfidfWeight docs d2 t)).sum

/-- Euclidean norm of a document's tf-idf vector. -/
noncomputable def vecNorm (docs : List (List String)) (d : List String) : ℝ :=
  Real.sqrt (dotProduct docs d d)

/-- sklearn `cosine_similarity` applied to the (l2-normalized) tf-idf
rows: `normalize` maps a zero row to itself, so the composite equals the
cosine of the unnormalized vectors with value 0 when either norm is 0. -/
noncomputable def cosineSim (docs : List (List String)) (d1 d2 : List String) : ℝ :=
  if vecNorm docs d1 = 0 ∨ vecNorm docs d2 = 0 then 0
  else dotProduct docs d1 d2 / (vecNorm docs d1 * vecNorm docs d2)

/- ----------------------------------------------------------------
   The `/get_friend_suggestions` route.
   ---------------------------------------------------------------- -/

/-- The exclusion test of the `non_friends` loop: already a friend, a
pending request in either direction, or previously dismissed by the
requester. -/
def suggestionBlocked (s : Store) (current_user u : User) : Bool :=
  is_friend s current_user u ||
  pendingRequestFrom s current_user.id u.id ||
  pendingRequestFrom s u.id current_user.id ||
  has_dismissed_suggestion s current_user u

/-- The `non_friends` list: `User.query.filter(User.id != current_user.id)`
in table order, then the loop keeping users that pass the exclusion
test. -/
def eligible (s : Store) (current_user : User) : List User :=
  (s.users.filter (fun u => u.id != current_user.id)).filter
    (fun u => !suggestionBlocked s current_user u)

/-- One emitted suggestion record: exactly the identity fields the route
keeps after popping the similarity score. -/
structure Suggestion where
  id : Nat
  name : String
  email : String
deriving DecidableEq

/-- `SIMILARITY_THRESHOLD = 0.3`. -/
noncomputable def SIMILARITY_THRESHOLD : ℝ := 3 / 10

/-- The document pool handed to `get_tag_vectors`:
`[current_user] + non_friends`, as token streams. -/
def poolDocs (s : Store) (current_user : User) : List (List String) :=
  (current_user :: eligible s current_user).map userTokens

/-- Each eligible candidate paired with its cosine similarity to the
requester (the `similarities` array zipped with `enumerate(non_friends)`),
already shaped as the suggestion record the loop builds. -/
noncomputable def candidateScores (s : Store) (current_user : User) : List (Suggestion × ℝ) :=
  (eligible s current_user).map (fun u =>
    (⟨u.id, u.name, u.email⟩, cosineSim (poolDocs s current_user)
      (userTokens current_user) (userTokens u)))

/-- The `suggestions` list after the threshold filter
`similarities[idx] >= SIMILARITY_THRESHOLD`, in enumeration order. -/
noncomputable def keptSuggestions (s : Store) (current_user : User) : List (Suggestion × ℝ) :=
  (candidateScores s current_user).filter (fun p => decide (SIMILARITY_THRESHOLD ≤ p.2))

/-- Sort key order of `suggestions.sort(key=..., reverse=True)`:
descending similarity. -/
def simOrder (a b : Suggestion × ℝ) : Prop := b.2 ≤ a.2

noncomputable instance : DecidableRel simOrder :=
  fun a b => inferInstanceAs (Decidable (b.2 ≤ a.2))

instance : IsTotal (Suggestion × ℝ) simOrder := ⟨fun a b => le_total b.2 a.2⟩

instance : IsTrans (Suggestion × ℝ) simOrder := ⟨fun _ _ _ h1 h2 => le_trans h2 h1⟩

/-- The sorted `suggestions` list.  Python `list.sort` is stable;
`List.insertionSort simOrder` places each element before exactly the
later elements of strictly smaller key, which is the unique stable
descending order. -/
noncomputable def rankedSuggestions (s : Store) (current_user : User) : List (Suggestion × ℝ) :=
  List.insertionSort simOrder (keptSuggestions s current_user)

/-- Outcome of the `/get_friend_suggestions` route (authentication
failures, out of the engine's scope, are not modelled): the JSON array
of suggestion records, or the 500 response produced by the
`except` clause. -/
inductive SuggestionsResponse where
  | ok (suggestions : List Suggestion)
  | serverError (message : String)
deriving DecidableEq

/-- The `/get_friend_suggestions` route body: compute `non_friends`;
answer `[]` at once when it is empty (vectorization is skipped);
otherwise vectorize the pool — `TfidfVectorizer.fit_transform` raises
ValueError when the fitted vocabulary is empty, which the `except`
clause turns into the 500 response — then filter by threshold, sort by
similarity descending (stable), truncate to 3 and strip the scores. -/
noncomputable def get_friend_suggestions (s : Store) (current_user : User) : SuggestionsResponse :=
  if (eligible s current_user).isEmpty then .ok []
  else if (vocabulary (poolDocs s current_user)).isEmpty then
    .serverError "Error generating friend suggestions"
  else .ok (((rankedSuggestions s current_user).take 3).map Prod.fst)

/- ----------------------------------------------------------------
   Basic facts about the vector model.
   ---------------------------------------------------------------- -/

theorem docCount_le_length (docs : List (List String)) (t : String) :
    docCount docs t ≤ docs.length :=
  List.length_filter_le _ _

theorem idf_pos (docs : List (List String)) (t : String) : 0 < idf docs t := by
  have h1 : (0 : ℝ) < 1 + (docCount docs t : ℝ) := by positivity
  have h2 : (1 : ℝ) + (docCount docs t : ℝ) ≤ 1 + (docs.length : ℝ) := by
    have h := docCount_le_length docs t
    have : ((docCount docs t : ℕ) : ℝ) ≤ ((docs.length : ℕ) : ℝ) := by exact_mod_cast h
    linarith
  have hlog : 0 ≤ Real.log ((1 + (docs.length : ℝ)) / (1 + (docCount docs t : ℝ))) :=
    Real.log_nonneg ((one_le_div h1).mpr h2)
  unfold idf
  linarith

theorem tfidfWeight_nonneg (docs : List (List String)) (d : List String) (t : String) :
    0 ≤ tfidfWeight docs d t :=
  mul_nonneg (Nat.cast_nonneg _) (idf_pos docs t).le

theorem tfidfWeight_pos (docs : List (List String)) (d : List String) (t : String)
    (h : 0 < d.count t) : 0 < tfidfWeight docs d t :=
  mul_pos (by exact_mod_cast h) (idf_pos docs t)

theorem tfidfWeight_lt_of_count_lt (docs : List (List String)) (d1 d2 : List String)
    (t : String) (h : d1.count t < d2.count t) :
    tfidfWeight docs d1 t < tfidfWeight docs d2 t := by
  unfold tfidfWeight
  have hc : ((d1.count t : ℕ) : ℝ) < ((d2.count t : ℕ) : ℝ) := by exact_mod_cast h
  exact mul_lt_mul_of_pos_right hc (idf_pos docs t)

theorem tfidfWeight_nil (docs : List (List String)) (t : String) :
    tfidfWeight docs [] t = 0 := by
  simp [tfidfWeight]

theorem dotProduct_self_nonneg (docs : List (List String)) (d : List String) :
    0 ≤ dotProduct docs d d := by
  apply List.sum_nonneg
  intro x hx
  rcases List.mem_map.1 hx with ⟨t, _, rfl⟩
  exact mul_self_nonneg _

theorem dotProduct_nil_left (docs : List (List String)) (d : List String) :
    dotProduct docs [] d = 0 := by
  apply List.sum_eq_zero
  intro x hx
  rcases List.mem_map.1 hx with ⟨t, _, rfl⟩
  simp [tfidfWeight_nil]

theorem dotProduct_nil_right (docs : List (List String)) (d : List String) :
    dotProduct docs d [] = 0 := by
  apply List.sum_eq_zero
  intro x hx
  rcases List.mem_map.1 hx with ⟨t, _, rfl⟩
  simp [tfidfWeight_nil]

theorem vecNorm_nil (docs : List (List String)) : vecNorm docs [] = 0 := by
  simp [vecNorm, dotProduct_nil_left, Real.sqrt_zero]

theorem cosineSim_nil_left (docs : List (List String)) (d : List String) :
    cosineSim docs [] d = 0 := by
  simp [cosineSim, vecNorm_nil]

theorem cosineSim_nil_right (docs : List (List String)) (d : List String) :
    cosineSim docs d [] = 0 := by
  simp [cosineSim, vecNorm_nil]

theorem mem_vocabulary_of_mem {docs : List (List String)} {d : List String} {t : String}
    (hd : d ∈ docs) (ht : t ∈ d) : t ∈ vocabulary docs :=
  List.mem_dedup.2 (List.mem_flatten.2 ⟨d, hd, ht⟩)

theorem dotProduct_self_pos {docs : List (List String)} {d : List String} {t : String}
    (ht : t ∈ vocabulary docs) (hc : 0 < d.count t) : 0 < dotProduct docs d d := by
  have hw : 0 < tfidfWeight docs d t := tfidfWeight_pos docs d t hc
  have hmem : tfidfWeight docs d t * tfidfWeight docs d t ∈
      (vocabulary docs).map (fun u => tfidfWeight docs d u * tfidfWeight docs d u) :=
    List.mem_map_of_mem _ ht
  have hle := List.single_le_sum (l :=
      (vocabulary docs).map (fun u => tfidfWeight docs d u * tfidfWeight docs d u))
    (fun x hx => by
      rcases List.mem_map.1 hx with ⟨u, _, rfl⟩
      exact mul_self_nonneg _) _ hmem
  calc (0 : ℝ) < tfidfWeight docs d t * tfidfWeight docs d t := mul_pos hw hw
    _ ≤ dotProduct docs d d := hle

theorem cosineSim_self {docs : List (List String)} {d : List String}
    (h : 0 < dotProduct docs d d) : cosineSim docs d d = 1 := by
  have hs : 0 < vecNorm docs d := Real.sqrt_pos.2 h
  unfold cosineSim
  rw [if_neg (by push_neg; exact ⟨hs.ne', hs.ne'⟩)]
  unfold vecNorm
  rw [Real.mul_self_sqrt h.le]
  exact div_self h.ne'

theorem cosineSim_same_doc (docs : List (List String)) (d : List String)
    (hd : d ∈ docs) (hne : d ≠ []) : cosineSim docs d d = 1 := by
  obtain ⟨t, ht⟩ := List.exists_mem_of_ne_nil d hne
  exact cosineSim_self (dotProduct_self_pos (mem_vocabulary_of_mem hd ht)
    (List.count_pos_iff.2 ht))

/- ----------------------------------------------------------------
   Stability of the descending sort.
   ---------------------------------------------------------------- -/

theorem filter_key_orderedInsert (k : ℝ) (x : Suggestion × ℝ) (l : List (Suggestion × ℝ)) :
    (List.orderedInsert simOrder x l).filter (fun y => decide (y.2 = k)) =
      if x.2 = k then x :: l.filter (fun y => decide (y.2 = k))
      else l.filter (fun y => decide (y.2 = k)) := by
  induction l with
  | nil =>
    by_cases hx : x.2 = k <;> simp [List.orderedInsert, List.filter, hx]
  | cons b l ih =>
    simp only [List.orderedInsert]
    by_cases hr : simOrder x b
    · rw [if_pos hr]
      by_cases hx : x.2 = k <;> by_cases hb : b.2 = k <;>
        simp [List.filter_cons, hx, hb]
    · rw [if_neg hr]
      by_cases hb : b.2 = k
      · by_cases hx : x.2 = k
        · exact absurd (le_of_eq (hb.trans hx.symm)) hr
        · simp [List.filter_cons, hb, hx, ih]
      · simp [List.filter_cons, hb, ih]

theorem filter_key_insertionSort (k : ℝ) (l : List (Suggestion × ℝ)) :
    (List.insertionSort simOrder l).filter (fun y => decide (y.2 = k)) =
      l.filter (fun y => decide (y.2 = k)) := by
  induction l with
  | nil => rfl
  | cons a l ih =>
    simp only [List.insertionSort, filter_key_orderedInsert, List.filter_cons]
    by_cases ha : a.2 = k <;> simp [ha, ih]

theorem insertionSort_of_const_key (k : ℝ) (l : List (Suggestion × ℝ))
    (h : ∀ p ∈ l, p.2 = k) : List.insertionSort simOrder l = l := by
  have h1 : l.filter (fun y => decide (y.2 = k)) = l :=
    List.filter_eq_self.2 (fun a ha => by simp [h a ha])
  have h2 : (List.insertionSort simOrder l).filter (fun y => decide (y.2 = k)) =
      List.insertionSort simOrder l :=
    List.filter_eq_self.2 (fun a ha => by
      simp [h a ((List.perm_insertionSort simOrder l).subset ha)])
  rw [← h2, filter_key_insertionSort, h1]

/- ----------------------------------------------------------------
   Branch equations and membership structure of the route.
   ---------------------------------------------------------------- -/

theorem gfs_of_empty_eligible {s : Store} {cu : User} (h : eligible s cu = []) :
    get_friend_suggestions s cu = .ok [] := by
  simp [get_friend_suggestions, h]

theorem gfs_of_empty_vocabulary {s : Store} {cu : User} (h1 : eligible s cu ≠ [])
    (h2 : vocabulary (poolDocs s cu) = []) :
    get_friend_suggestions s cu = .serverError "Error generating friend suggestions" := by
  simp [get_friend_suggestions, List.isEmpty_iff, h1, h2]

theorem gfs_main_branch {s : Store} {cu : User} (h1 : eligible s cu ≠ [])
    (h2 : vocabulary (poolDocs s cu) ≠ []) :
    get_friend_suggestions s cu =
      .ok (((rankedSuggestions s cu).take 3).map Prod.fst) := by
  simp [get_friend_suggestions, List.isEmpty_iff, h1, h2]

theorem mem_eligible {s : Store} {cu u : User} (hu : u ∈ eligible s cu) :
    u ∈ s.users ∧ u.id ≠ cu.id ∧ suggestionBlocked s cu u = false := by
  unfold eligible at hu
  rcases List.mem_filter.1 hu with ⟨hu1, hb⟩
  rcases List.mem_filter.1 hu1 with ⟨hmem, hid⟩
  refine ⟨hmem, ?_, ?_⟩
  · simpa using hid
  · simpa using hb

theorem suggestionBlocked_congr_id (s : Store) (cu : User) {u v : User} (h : u.id = v.id) :
    suggestionBlocked s cu u = suggestionBlocked s cu v := by
  simp [suggestionBlocked, is_friend, pendingRequestFrom, has_dismissed_suggestion, h]

theorem mem_ranked_result {s : Store} {cu : User} {r : Suggestion}
    (h : r ∈ ((rankedSuggestions s cu).take 3).map Prod.fst) :
    ∃ u, u ∈ eligible s cu ∧ r = ⟨u.id, u.name, u.email⟩ ∧
      SIMILARITY_THRESHOLD ≤ cosineSim (poolDocs s cu) (userTokens cu) (userTokens u) := by
  rcases List.mem_map.1 h with ⟨p, hp, rfl⟩
  have hp1 : p ∈ rankedSuggestions s cu :=
    List.Sublist.mem hp (List.take_sublist 3 _)
  have hp2 : p ∈ keptSuggestions s cu :=
    (List.perm_insertionSort simOrder _).subset hp1
  rcases List.mem_filter.1 hp2 with ⟨hp3, hthr⟩
  rcases List.mem_map.1 hp3 with ⟨u, hu, rfl⟩
  exact ⟨u, hu, rfl, of_decide_eq_true hthr⟩

theorem gfs_ok_record {s : Store} {cu : User} {l : List Suggestion} {r : Suggestion}
    (h : get_friend_suggestions s cu = .ok l) (hr : r ∈ l) :
    ∃ u, u ∈ eligible s cu ∧ r = ⟨u.id, u.name, u.email⟩ ∧
      SIMILARITY_THRESHOLD ≤ cosineSim (poolDocs s cu) (userTokens cu) (userTokens u) := by
  by_cases h1 : eligible s cu = []
  · rw [gfs_of_empty_eligible h1] at h
    simp only [SuggestionsResponse.ok.injEq] at h
    rw [← h] at hr
    cases hr
  · by_cases h2 : vocabulary (poolDocs s cu) = []
    · rw [gfs_of_empty_vocabulary h1 h2] at h
      exact absurd h (by simp)
    · rw [gfs_main_branch h1 h2] at h
      simp only [SuggestionsResponse.ok.injEq] at h
      rw [← h] at hr
      exact mem_ranked_result hr

theorem blocked_not_in_result {s : Store} {cu u : User} {l : List Suggestion} {r : Suggestion}
    (hb : suggestionBlocked s cu u = true)
    (h : get_friend_suggestions s cu = .ok l) (hr : r ∈ l) : r.id ≠ u.id := by
  rcases gfs_ok_record h hr with ⟨v, hv, rfl, _⟩
  intro hid
  have hid2 : v.id = u.id := hid
  have hbv := (mem_eligible hv).2.2
  rw [suggestionBlocked_congr_id s cu hid2, hb] at hbv
  cases hbv

/- ----------------------------------------------------------------
   Evaluation helpers for concrete stores.
   ---------------------------------------------------------------- -/

theorem kept_nil_of_all_below {s : Store} {cu : User}
    (h : ∀ p ∈ candidateScores s cu, p.2 < SIMILARITY_THRESHOLD) :
    keptSuggestions s cu = [] := by
  apply List.filter_eq_nil_iff.2
  intro p hp
  simp only [decide_eq_true_eq]
  exact not_le.2 (h p hp)

theorem gfs_ok_of_kept_nil {s : Store} {cu : User}
    (h2 : vocabulary (poolDocs s cu) ≠ [])
    (h : keptSuggestions s cu = []) : get_friend_suggestions s cu = .ok [] := by
  by_cases h1 : eligible s cu = []
  · exact gfs_of_empty_eligible h1
  · rw [gfs_main_branch h1 h2]
    simp [rankedSuggestions, h, List.insertionSort]

theorem gfs_zero_requester {s : Store} {cu : User} (h1 : userTokens cu = [])
    (h2 : vocabulary (poolDocs s cu) ≠ []) : get_friend_suggestions s cu = .ok [] := by
  apply gfs_ok_of_kept_nil h2
  apply kept_nil_of_all_below
  intro p hp
  rcases List.mem_map.1 hp with ⟨u, _, rfl⟩
  simp only [h1, cosineSim_nil_left]
  rw [SIMILARITY_THRESHOLD]
  norm_num

theorem gfs_single_identical {s : Store} {cu v : User} (he : eligible s cu = [v])
    (ht : userTokens v = userTokens cu) (hne : userTokens cu ≠ []) :
    get_friend_suggestions s cu = .ok [⟨v.id, v.name, v.email⟩] := by
  have hdocs : poolDocs s cu = [userTokens cu, userTokens cu] := by
    simp [poolDocs, he, ht]
  have hvne : vocabulary (poolDocs s cu) ≠ [] := by
    obtain ⟨t, htm⟩ := List.exists_mem_of_ne_nil _ hne
    intro hcon
    have hmem : t ∈ vocabulary (poolDocs s cu) :=
      mem_vocabulary_of_mem (by rw [hdocs]; simp) htm
    rw [hcon] at hmem
    cases hmem
  have hsim : cosineSim (poolDocs s cu) (userTokens cu) (userTokens v) = 1 := by
    rw [ht]
    exact cosineSim_same_doc _ _ (by rw [hdocs]; simp) hne
  have hcand : candidateScores s cu = [(⟨v.id, v.name, v.email⟩, 1)] := by
    rw [candidateScores, he]
    simp [hsim]
  have hthr : SIMILARITY_THRESHOLD ≤ (1 : ℝ) := by
    rw [SIMILARITY_THRESHOLD]; norm_num
  have hkept : keptSuggestions s cu = [(⟨v.id, v.name, v.email⟩, 1)] := by
    rw [keptSuggestions, hcand]
    simp [List.filter_cons, hthr]
  have hrank : rankedSuggestions s cu = [(⟨v.id, v.name, v.email⟩, 1)] := by
    rw [rankedSuggestions, hkept]
    simp [List.insertionSort, List.orderedInsert]
  rw [gfs_main_branch (by rw [he]; simp) hvne, hrank]
  simp

/- ----------------------------------------------------------------
   Dismissal facts.
   ---------------------------------------------------------------- -/

theorem dismiss_suggestion_users (s : Store) (self other : User) :
    (dismiss_suggestion s self other).users = s.users := by
  unfold dismiss_suggestion
  by_cases h : has_dismissed_suggestion s self other = true <;> simp [h]

theorem has_dismissed_after (s : Store) (self other : User) :
    has_dismissed_suggestion (dismiss_suggestion s self other) self other = true := by
  unfold dismiss_suggestion
  by_cases h : has_dismissed_suggestion s self other = true
  · simp [h]
  · simp only [h, Bool.false_eq_true, if_false]
    simp [has_dismissed_suggestion, List.contains, List.elem_iff] at h ⊢

theorem dismiss_suggestion_idem (s : Store) (self other : User) :
    dismiss_suggestion (dismiss_suggestion s self other) self other =
      dismiss_suggestion s self other := by
  rw [dismiss_suggestion, if_pos (has_dismissed_after s self other)]

theorem findUser_dismiss (s : Store) (self other : User) (uid : Nat) :
    findUser (dismiss_suggestion s self other) uid = findUser s uid := by
  rw [findUser, findUser, dismiss_suggestion_users]

theorem findUser_id {s : Store} {uid : Nat} {u : User} (h : findUser s uid = some u) :
    u.id = uid := by
  have hp := List.find?_some h
  simpa using hp

theorem findUser_mem {s : Store} {uid : Nat} {u : User} (h : findUser s uid = some u) :
    u ∈ s.users :=
  List.mem_of_find?_eq_some h

/- ----------------------------------------------------------------
   Concrete stores used to instantiate the claims.
   ---------------------------------------------------------------- -/

def uAnn : User := ⟨1, "Ann", "ann@example.com", ["rust"]⟩

def uBea : User := ⟨2, "Bea", "bea@example.com", ["rust"]⟩

def uCal : User := ⟨3, "Cal", "cal@example.com", ["rust"]⟩

/-- Ann and Cal are friends; Bea is unrelated to Ann. -/
def storeA : Store := ⟨[uAnn, uBea, uCal], [(1, 3), (3, 1)], [], []⟩

theorem evalA : get_friend_suggestions storeA uAnn = .ok [⟨2, "Bea", "bea@example.com"⟩] :=
  @gfs_single_identical storeA uAnn uBea (by decide) (by decide) (by decide)

theorem eligible_inj {s : Store} {cu u v : User} (hnodup : (s.users.map User.id).Nodup)
    (hu : u ∈ eligible s cu) (hv : v ∈ eligible s cu) (heq : u.id = v.id) : u = v :=
  List.inj_on_of_nodup_map hnodup (mem_eligible hu).1 (mem_eligible hv).1 heq

theorem gfs_ok_result_eq {s : Store} {cu : User} {l : List Suggestion}
    (h : get_friend_suggestions s cu = .ok l) :
    l = ((rankedSuggestions s cu).take 3).map Prod.fst := by
  by_cases h1 : eligible s cu = []
  · rw [gfs_of_empty_eligible h1] at h
    simp only [SuggestionsResponse.ok.injEq] at h
    rw [← h]
    have hkept : keptSuggestions s cu = [] := by
      simp [keptSuggestions, candidateScores, h1]
    simp [rankedSuggestions, hkept, List.insertionSort]
  · by_cases h2 : vocabulary (poolDocs s cu) = []
    · rw [gfs_of_empty_vocabulary h1 h2] at h
      exact absurd h (by simp)
    · rw [gfs_main_branch h1 h2] at h
      simp only [SuggestionsResponse.ok.injEq] at h
      exact h.symm

/- ----------------------------------------------------------------
   The claims.
   ---------------------------------------------------------------- -/

/-- C1: for every requester, a user who is the requester's friend, or
has a pending friend request with the requester in either direction, or
was previously dismissed by the requester, never appears in the result
of `get_friend_suggestions`, regardless of how similar their tags are. -/
theorem excluded_users_never_suggested (s : Store) (cu u : User) (l : List Suggestion)
    (hexcl : is_friend s cu u = true ∨ pendingRequestFrom s cu.id u.id = true ∨
      pendingRequestFrom s u.id cu.id = true ∨ has_dismissed_suggestion s cu u = true)
    (h : get_friend_suggestions s cu = .ok l) :
    ∀ r ∈ l, r.id ≠ u.id := by
  intro r hr
  apply blocked_not_in_result _ h hr
  rw [suggestionBlocked]
  rcases hexcl with h1 | h1 | h1 | h1 <;> simp [h1]

/-- Witness for C1: in `storeA`, Cal is Ann's friend and does not
appear in Ann's (nonempty) suggestion result. -/
theorem excluded_users_never_suggested_witness :
    is_friend storeA uAnn uCal = true ∧
    get_friend_suggestions storeA uAnn = .ok [⟨2, "Bea", "bea@example.com"⟩] ∧
    (⟨2, "Bea", "bea@example.com"⟩ : Suggestion).id ≠ uCal.id :=
  ⟨by decide, evalA,
    excluded_users_never_suggested storeA uAnn uCal _ (Or.inl (by decide)) evalA _ (by decide)⟩

/-- C4: for every requester whose eligible-candidate pool is empty,
`get_friend_suggestions` returns the empty list immediately, without
ever invoking vectorization (the result is `ok []` even in states where
vectorizing the singleton pool would have raised). -/
theorem empty_pool_returns_empty (s : Store) (cu : User) (h : eligible s cu = []) :
    get_friend_suggestions s cu = .ok [] :=
  gfs_of_empty_eligible h

def uDot : User := ⟨1, "Dot", "dot@example.com", []⟩

/-- A store whose only user is the requester, who moreover has no tags:
the eligible pool is empty and vectorizing the pool would have raised. -/
def storeD : Store := ⟨[uDot], [], [], []⟩

/-- Witness for C4: an empty eligible pool yields `ok []`, although the
pool's vocabulary is empty, which would have been an error had
vectorization run. -/
theorem empty_pool_returns_empty_witness :
    eligible storeD uDot = [] ∧
    vocabulary (poolDocs storeD uDot) = [] ∧
    get_friend_suggestions storeD uDot = .ok [] :=
  ⟨by decide, by decide, empty_pool_returns_empty storeD uDot (by decide)⟩

/-- C2: for every candidate pool, every suggestion returned by
`get_friend_suggestions` corresponds to an eligible candidate whose
internally computed cosine similarity to the requester is at least
`SIMILARITY_THRESHOLD = 0.3`, and (with the database's primary-key
uniqueness) no candidate whose similarity is below 0.3 ever appears in
the result. -/
theorem returned_suggestions_meet_threshold (s : Store) (cu : User) (l : List Suggestion)
    (hnodup : (s.users.map User.id).Nodup)
    (h : get_friend_suggestions s cu = .ok l) :
    (∀ r ∈ l, ∃ u, u ∈ eligible s cu ∧ r = ⟨u.id, u.name, u.email⟩ ∧
      SIMILARITY_THRESHOLD ≤ cosineSim (poolDocs s cu) (userTokens cu) (userTokens u)) ∧
    (∀ u ∈ eligible s cu,
      cosineSim (poolDocs s cu) (userTokens cu) (userTokens u) < SIMILARITY_THRESHOLD →
      ∀ r ∈ l, r.id ≠ u.id) := by
  refine ⟨fun r hr => gfs_ok_record h hr, ?_⟩
  intro u hu hlt r hr hid
  rcases gfs_ok_record h hr with ⟨v, hv, rfl, hthr⟩
  have hid2 : v.id = u.id := hid
  have hvu : v = u := eligible_inj hnodup hv hu hid2
  rw [hvu] at hthr
  exact absurd hthr (not_le.2 hlt)

/-- Witness for C2: in `storeA` the returned record for Bea comes from
an eligible candidate meeting the threshold. -/
theorem returned_suggestions_meet_threshold_witness :
    (storeA.users.map User.id).Nodup ∧
    get_friend_suggestions storeA uAnn = .ok [⟨2, "Bea", "bea@example.com"⟩] ∧
    ∃ u, u ∈ eligible storeA uAnn ∧
      (⟨2, "Bea", "bea@example.com"⟩ : Suggestion) = ⟨u.id, u.name, u.email⟩ ∧
      SIMILARITY_THRESHOLD ≤ cosineSim (poolDocs storeA uAnn) (userTokens uAnn) (userTokens u) :=
  ⟨by decide, evalA,
    (returned_suggestions_meet_threshold storeA uAnn _ (by decide) evalA).1 _ (by decide)⟩

/-- C3: for every candidate pool, the result of `get_friend_suggestions`
is the first 3 records of the kept candidates sorted by similarity in
descending order with a stable tie-break (candidates of equal similarity
keep their eligible-candidate enumeration order, independent of user id
or name); the result has at most 3 entries, and when all kept candidates
tie at one similarity, exactly the first 3 in enumeration order are
returned. -/
theorem suggestions_sorted_capped_stable (s : Store) (cu : User) (l : List Suggestion)
    (h : get_friend_suggestions s cu = .ok l) :
    l.length ≤ 3 ∧
    l = ((rankedSuggestions s cu).take 3).map Prod.fst ∧
    List.Sorted simOrder (rankedSuggestions s cu) ∧
    (∀ k : ℝ, (rankedSuggestions s cu).filter (fun p => decide (p.2 = k)) =
      (keptSuggestions s cu).filter (fun p => decide (p.2 = k))) ∧
    (∀ k : ℝ, (∀ p ∈ keptSuggestions s cu, p.2 = k) →
      l = ((keptSuggestions s cu).take 3).map Prod.fst) := by
  have hl := gfs_ok_result_eq h
  refine ⟨?_, hl, List.sorted_insertionSort simOrder _,
    fun k => filter_key_insertionSort k _, ?_⟩
  · rw [hl, List.length_map]
    exact List.length_take_le 3 _
  · intro k hk
    rw [hl, rankedSuggestions, insertionSort_of_const_key k _ hk]

/-- Witness for C3: the concrete result in `storeA` has at most 3
entries and equals the stripped, truncated ranked list. -/
theorem suggestions_sorted_capped_stable_witness :
    get_friend_suggestions storeA uAnn = .ok [⟨2, "Bea", "bea@example.com"⟩] ∧
    ([(⟨2, "Bea", "bea@example.com"⟩ : Suggestion)].length ≤ 3 ∧
      [(⟨2, "Bea", "bea@example.com"⟩ : Suggestion)] =
        ((rankedSuggestions storeA uAnn).take 3).map Prod.fst) :=
  ⟨evalA,
    (suggestions_sorted_capped_stable storeA uAnn _ evalA).1,
    (suggestions_sorted_capped_stable storeA uAnn _ evalA).2.1⟩

/-- C7: every record returned by `get_friend_suggestions` is exactly the
identity fields id, name and email of an eligible candidate (the
`Suggestion` type has no other field); the numeric score is stripped
before returning — the result is the score-free first projection of the
ranked scored pairs. -/
theorem records_identity_fields_only (s : Store) (cu : User) (l : List Suggestion)
    (h : get_friend_suggestions s cu = .ok l) :
    l = ((rankedSuggestions s cu).take 3).map Prod.fst ∧
    ∀ r ∈ l, ∃ u, u ∈ eligible s cu ∧ r = Suggestion.mk u.id u.name u.email :=
  ⟨gfs_ok_result_eq h, fun r hr => by
    rcases gfs_ok_record h hr with ⟨u, hu, hrec, _⟩
    exact ⟨u, hu, hrec⟩⟩

/-- Witness for C7: the record returned in `storeA` is exactly Bea's
identity fields. -/
theorem records_identity_fields_only_witness :
    get_friend_suggestions storeA uAnn = .ok [⟨2, "Bea", "bea@example.com"⟩] ∧
    (∃ u, u ∈ eligible storeA uAnn ∧
      (⟨2, "Bea", "bea@example.com"⟩ : Suggestion) = Suggestion.mk u.id u.name u.email) :=
  ⟨evalA, (records_identity_fields_only storeA uAnn _ evalA).2 _ (by decide)⟩

def uDee : User := ⟨1, "Dee", "dee@example.com", []⟩

def uEli : User := ⟨2, "Eli", "eli@example.com", []⟩

/-- A pool in which every document is the empty tag set. -/
def storeB : Store := ⟨[uDee, uEli], [], [], []⟩

/-- Counterexample to C5: when every document in the (non-empty
candidate) pool is the empty tag set, the vectorizer raises and
`get_friend_suggestions` answers the 500 error response, not `[]`. -/
theorem empty_vocabulary_error_counterexample :
    (∀ u ∈ storeB.users, u.tags = []) ∧
    eligible storeB uDee ≠ [] ∧
    get_friend_suggestions storeB uDee = .serverError "Error generating friend suggestions" ∧
    get_friend_suggestions storeB uDee ≠ .ok [] := by
  have herr : get_friend_suggestions storeB uDee =
      .serverError "Error generating friend suggestions" :=
    gfs_of_empty_vocabulary (by decide) (by decide)
  exact ⟨by decide, by decide, herr, by rw [herr]; simp⟩

/-- C5 as amended: similarity against a requester with no tokens is
defined as 0 for every document (no division by zero), and when the
pool's vocabulary is non-empty a requester with no tokens gets `[]`;
but when the vocabulary is empty the vectorizer raises and the route
answers an error response instead of `[]`. -/
theorem zero_vector_similarity_amended (s : Store) (cu : User)
    (h1 : userTokens cu = []) (h2 : vocabulary (poolDocs s cu) ≠ []) :
    get_friend_suggestions s cu = .ok [] ∧
    ∀ d : List String, cosineSim (poolDocs s cu) (userTokens cu) d = 0 :=
  ⟨gfs_zero_requester h1 h2, fun d => by rw [h1]; exact cosineSim_nil_left _ _⟩

def uJon : User := ⟨1, "Jon", "jon@example.com", []⟩

def uKim : User := ⟨2, "Kim", "kim@example.com", ["rust"]⟩

/-- A tagless requester facing a candidate whose tags are non-empty. -/
def storeE : Store := ⟨[uJon, uKim], [], [], []⟩

/-- Witness for the amended C5: in `storeE` the requester has no tokens,
the pool vocabulary is non-empty, and the result is `ok []`. -/
theorem zero_vector_similarity_amended_witness :
    userTokens uJon = [] ∧
    vocabulary (poolDocs storeE uJon) ≠ [] ∧
    get_friend_suggestions storeE uJon = .ok [] :=
  ⟨by decide, by decide,
    (zero_vector_similarity_amended storeE uJon (by decide) (by decide)).1⟩

def uFay : User := ⟨1, "Fay", "fay@example.com", ["a"]⟩

def uGus : User := ⟨2, "Gus", "gus@example.com", []⟩

/-- A pool containing a user with an empty tag list in which no document
yields a token (the requester's only tag is a single character, which
the token pattern drops). -/
def storeC : Store := ⟨[uFay, uGus], [], [], []⟩

/-- Counterexample to C9: a pool containing a user with an empty tag
list need not complete normally — here the vocabulary comes out empty,
the vectorizer raises, and the route answers the 500 error response. -/
theorem empty_tags_user_error_counterexample :
    uGus ∈ storeC.users ∧
    uGus.tags = [] ∧
    get_friend_suggestions storeC uFay = .serverError "Error generating friend suggestions" :=
  ⟨by decide, rfl, gfs_of_empty_vocabulary (by decide) (by decide)⟩

/-- C9 as amended: provided the pool's vocabulary is non-empty, an
eligible user with a missing or empty tag list never causes an error:
the route completes normally, that user's tf-idf vector is the zero
vector, and (with primary-key uniqueness) the user never meets the
similarity threshold, so they do not appear in the result. -/
theorem empty_tags_user_amended (s : Store) (cu u : User)
    (hnodup : (s.users.map User.id).Nodup) (hu : u ∈ eligible s cu)
    (htok : userTokens u = []) (hvoc : vocabulary (poolDocs s cu) ≠ []) :
    (∃ l, get_friend_suggestions s cu = .ok l) ∧
    (∀ t, tfidfWeight (poolDocs s cu) (userTokens u) t = 0) ∧
    (∀ l, get_friend_suggestions s cu = .ok l → ∀ r ∈ l, r.id ≠ u.id) := by
  have h1 : eligible s cu ≠ [] := fun hc => by rw [hc] at hu; cases hu
  refine ⟨⟨_, gfs_main_branch h1 hvoc⟩, fun t => by rw [htok]; exact tfidfWeight_nil _ t, ?_⟩
  intro l h r hr hid
  rcases gfs_ok_record h hr with ⟨v, hv, rfl, hthr⟩
  have hid2 : v.id = u.id := hid
  have hvu : v = u := eligible_inj hnodup hv hu hid2
  rw [hvu, htok, cosineSim_nil_right] at hthr
  rw [SIMILARITY_THRESHOLD] at hthr
  norm_num at hthr

def uHal : User := ⟨1, "Hal", "hal@example.com", ["rust"]⟩

def uIvy : User := ⟨2, "Ivy", "ivy@example.com", []⟩

/-- A tagged requester facing one eligible candidate with no tags. -/
def storeF : Store := ⟨[uHal, uIvy], [], [], []⟩

/-- Witness for the amended C9: in `storeF` the tagless candidate Ivy
causes no error and never appears in the result. -/
theorem empty_tags_user_amended_witness :
    (storeF.users.map User.id).Nodup ∧
    uIvy ∈ eligible storeF uHal ∧
    userTokens uIvy = [] ∧
    vocabulary (poolDocs storeF uHal) ≠ [] ∧
    (∃ l, get_friend_suggestions storeF uHal = .ok l) :=
  ⟨by decide, by decide, by decide, by decide,
    (empty_tags_user_amended storeF uHal uIvy (by decide) (by decide) (by decide)
      (by decide)).1⟩

def uPam : User := ⟨1, "Pam", "pam@example.com", ["machine learning"]⟩

def uQui : User := ⟨2, "Qui", "qui@example.com", ["machine learning"]⟩

/-- A pool whose users carry a multi-word tag. -/
def storeH : Store := ⟨[uPam, uQui], [], [], []⟩

/-- Counterexample to C6: the tag "machine learning" is not one
vocabulary term — the vectorizer re-tokenizes the space-joined tag
string, so the vocabulary holds "machine" and "learning" instead. -/
theorem tags_retokenized_counterexample :
    "machine learning" ∈ uPam.tags ∧
    "machine learning" ∉ vocabulary (poolDocs storeH uPam) ∧
    "machine" ∈ vocabulary (poolDocs storeH uPam) ∧
    "learning" ∈ vocabulary (poolDocs storeH uPam) := by
  decide

/-- C6 as amended: each user's tags are space-joined and re-tokenized by
the vectorizer (lowercased, split into maximal word-character runs, runs
shorter than two characters dropped); each resulting token is one
vocabulary term; duplicate occurrences of a term in a user's document
strictly increase that term's weight; and the vocabulary of a request is
exactly the union of the tokens of the requester and of the
currently-eligible candidates for that request. -/
theorem vectorizer_vocabulary_amended :
    (∀ (s : Store) (cu : User) (t : String),
      t ∈ vocabulary (poolDocs s cu) ↔
        t ∈ userTokens cu ∨ ∃ u ∈ eligible s cu, t ∈ userTokens u) ∧
    (∀ (docs : List (List String)) (d1 d2 : List String) (t : String),
      List.count t d1 < List.count t d2 →
        tfidfWeight docs d1 t < tfidfWeight docs d2 t) ∧
    (∀ u : User, userTokens u = tokenize (String.intercalate " " u.tags)) := by
  refine ⟨?_, fun docs d1 d2 t h => tfidfWeight_lt_of_count_lt docs d1 d2 t h,
    fun u => rfl⟩
  intro s cu t
  simp only [vocabulary, poolDocs, List.mem_dedup, List.mem_flatten, List.mem_map,
    List.mem_cons]
  constructor
  · rintro ⟨d, ⟨u, hu | hu, rfl⟩, ht⟩
    · exact Or.inl (hu ▸ ht)
    · exact Or.inr ⟨u, hu, ht⟩
  · rintro (ht | ⟨u, hu, ht⟩)
    · exact ⟨userTokens cu, ⟨cu, Or.inl rfl, rfl⟩, ht⟩
    · exact ⟨userTokens u, ⟨u, Or.inr hu, rfl⟩, ht⟩

/-- Witness for the amended C6: the vocabulary characterization at a
concrete pool, and a duplicate tag strictly increasing the weight. -/
theorem vectorizer_vocabulary_amended_witness :
    ("rust" ∈ vocabulary (poolDocs storeA uAnn) ↔
      "rust" ∈ userTokens uAnn ∨ ∃ u ∈ eligible storeA uAnn, "rust" ∈ userTokens u) ∧
    List.count "rust" ["rust"] < List.count "rust" ["rust", "rust"] ∧
    tfidfWeight [["rust"], ["rust", "rust"]] ["rust"] "rust" <
      tfidfWeight [["rust"], ["rust", "rust"]] ["rust", "rust"] "rust" :=
  ⟨vectorizer_vocabulary_amended.1 storeA uAnn "rust", by decide,
    vectorizer_vocabulary_amended.2.1 [["rust"], ["rust", "rust"]] ["rust"]
      ["rust", "rust"] "rust" (by decide)⟩

theorem mem_dismissed_after (s : Store) (self other : User) :
    (self.id, other.id) ∈ (dismiss_suggestion s self other).dismissed := by
  have h := has_dismissed_after s self other
  simpa [has_dismissed_suggestion, List.contains, List.elem_iff] using h

/-- C8: dismissing a suggestion is idempotent — dismissing an
already-dismissed user is a no-op and not an error: dismissing twice
leaves the dismissal store in the state reached after one dismissal and
the route produces the same success result both times — and the
dismissed user is excluded from all subsequent suggestion results for
that requester. -/
theorem dismissal_idempotent (s : Store) (cu u : User)
    (hfind : findUser s u.id = some u) :
    remove_friend_suggestion s cu u.id = .success (dismiss_suggestion s cu u) ∧
    remove_friend_suggestion (dismiss_suggestion s cu u) cu u.id =
      .success (dismiss_suggestion s cu u) ∧
    dismiss_suggestion (dismiss_suggestion s cu u) cu u = dismiss_suggestion s cu u ∧
    has_dismissed_suggestion (dismiss_suggestion s cu u) cu u = true ∧
    (∀ l, get_friend_suggestions (dismiss_suggestion s cu u) cu = .ok l →
      ∀ r ∈ l, r.id ≠ u.id) := by
  refine ⟨?_, ?_, dismiss_suggestion_idem s cu u, has_dismissed_after s cu u, ?_⟩
  · simp only [remove_friend_suggestion, hfind]
  · simp only [remove_friend_suggestion, findUser_dismiss, hfind]
    rw [dismiss_suggestion_idem]
  · intro l h r hr
    apply blocked_not_in_result _ h hr
    simp [suggestionBlocked, has_dismissed_after]

/-- Witness for C8: dismissing Ivy twice from Hal's suggestions equals
dismissing her once, and both route calls succeed identically. -/
theorem dismissal_idempotent_witness :
    remove_friend_suggestion storeF uHal uIvy.id =
      .success (dismiss_suggestion storeF uHal uIvy) ∧
    remove_friend_suggestion (dismiss_suggestion storeF uHal uIvy) uHal uIvy.id =
      .success (dismiss_suggestion storeF uHal uIvy) ∧
    dismiss_suggestion (dismiss_suggestion storeF uHal uIvy) uHal uIvy =
      dismiss_suggestion storeF uHal uIvy ∧
    has_dismissed_suggestion (dismiss_suggestion storeF uHal uIvy) uHal uIvy = true :=
  ⟨(dismissal_idempotent storeF uHal uIvy (by decide)).1,
    (dismissal_idempotent storeF uHal uIvy (by decide)).2.1,
    (dismissal_idempotent storeF uHal uIvy (by decide)).2.2.1,
    (dismissal_idempotent storeF uHal uIvy (by decide)).2.2.2.1⟩

/-- C10: dismissing imposes no eligibility precondition on the target
beyond existence: for every store, requester and target id — including
the requester themself and existing friends — if the id resolves to a
user the call succeeds and records (or keeps) the dismissal fact, and it
fails with the not-found response exactly when the id does not resolve. -/
theorem dismissal_no_eligibility_precondition (s : Store) (cu : User) (uid : Nat) :
    (∀ u, findUser s uid = some u →
      remove_friend_suggestion s cu uid = .success (dismiss_suggestion s cu u) ∧
      (cu.id, uid) ∈ (dismiss_suggestion s cu u).dismissed) ∧
    (findUser s uid = none → remove_friend_suggestion s cu uid = .notFound) := by
  constructor
  · intro u hf
    constructor
    · simp only [remove_friend_suggestion, hf]
    · have h := mem_dismissed_after s cu u
      rw [findUser_id hf] at h
      exact h
  · intro h
    simp only [remove_friend_suggestion, h]

def uNed : User := ⟨1, "Ned", "ned@example.com", []⟩

def uOra : User := ⟨2, "Ora", "ora@example.com", []⟩

/-- Ned and Ora are friends. -/
def storeG : Store := ⟨[uNed, uOra], [(1, 2), (2, 1)], [], []⟩

/-- Witness for C10: Ned can dismiss himself and his friend Ora, both
recorded; a nonexistent id yields the not-found response. -/
theorem dismissal_no_eligibility_precondition_witness :
    is_friend storeG uNed uOra = true ∧
    remove_friend_suggestion storeG uNed 1 = .success (dismiss_suggestion storeG uNed uNed) ∧
    (1, 1) ∈ (dismiss_suggestion storeG uNed uNed).dismissed ∧
    remove_friend_suggestion storeG uNed 2 = .success (dismiss_suggestion storeG uNed uOra) ∧
    remove_friend_suggestion storeG uNed 99 = .notFound :=
  ⟨by decide,
    ((dismissal_no_eligibility_precondition storeG uNed 1).1 uNed (by decide)).1,
    ((dismissal_no_eligibility_precondition storeG uNed 1).1 uNed (by decide)).2,
    ((dismissal_no_eligibility_precondition storeG uNed 2).1 uOra (by decide)).1,
    (dismissal_no_eligibility_precondition storeG uNed 99).2 (by decide)⟩

end CodeConnect
